import Mathlib

/-!
Verification of `src/sentry/testutils/silo.py`: the silo-mode test
multiplexer, the cross-silo foreign-key validators and the protected-query
fence scanner.  Python classes are identified by their (qualified) names;
Django model metadata is embedded as an explicit environment.
-/

deriving instance DecidableEq for Except

set_option maxRecDepth 4000

namespace Silo

/-- The silo modes.  Modelled from the spec: `SiloMode` lives in
`sentry.silo`, outside the repository files; the spec's closed Plane set is
{MONOLITH, CONTROL, REGION}. -/
inductive SiloMode where
  | MONOLITH
  | CONTROL
  | REGION
  deriving DecidableEq, Repr

/-! ## Fence scanner (`validate_protected_queries`) -/

/-- `protected_table(table, operation)` compiles the regex
`operation[^"]+"table"` with `re.IGNORECASE`; we keep the two components. -/
structure ProtectedPattern where
  table : String
  operation : String
  deriving DecidableEq, Repr

/-- `protected_table` from the source: build the pattern for one table and
operation. -/
def protected_table (table : String) (operation : String) : ProtectedPattern :=
  ⟨table, operation⟩

/-- Strip `p` from the front of `s` (character-wise), or `none`. -/
def stripPrefixL : List Char → List Char → Option (List Char)
  | s, [] => some s
  | [], _ :: _ => none
  | c :: s, p :: ps => if c = p then stripPrefixL s ps else none

/-- Semantics of `re.match` for the anchored pattern `operation[^"]+"table"`
under IGNORECASE: the lowered statement starts with the lowered operation,
followed by at least one non-quote character, then the lowered table name in
double quotes.  (`[^"]+` is forced to stop at the first quote.) -/
def ProtectedPattern.matches (p : ProtectedPattern) (sql : String) : Bool :=
  let s := sql.toList.map Char.toLower
  let op := p.operation.toList.map Char.toLower
  let tb := p.table.toList.map Char.toLower
  match stripPrefixL s op with
  | none => false
  | some rest =>
    let mid := rest.takeWhile (fun c => c ≠ '"')
    let tail := rest.dropWhile (fun c => c ≠ '"')
    if mid.isEmpty then false
    else
      match tail with
      | [] => false
      | _ :: afterQuote =>
        match stripPrefixL afterQuote tb with
        | some ('"' :: _) => true
        | _ => false

/-- The protected operations appended unconditionally by
`get_protected_operations` (the further, model-scan-derived patterns depend
on external Django app metadata, so the validator below is parameterized by
the full pattern list). -/
def base_protected_operations : List ProtectedPattern :=
  [ protected_table "sentry_user" "insert",
    protected_table "sentry_user" "update",
    protected_table "sentry_user" "delete",
    protected_table "sentry_organizationmember" "insert",
    protected_table "sentry_organizationmember" "update",
    protected_table "sentry_organizationmember" "delete",
    protected_table "sentry_organizationmembermapping" "insert" ]

/-- Modelled from the spec: `match_fence_query` is imported from
`sentry.silo`, which is not among the repository files.  Per the spec it
recognises a "begin privileged section" / "end privileged section" marker
statement and reports the operation (`"start"` or `"end"`). -/
def matchFenceQuery (sql : String) : Option String :=
  if sql = "SELECT 'start_role_override'" then some "start"
  else if sql = "SELECT 'end_role_override'" then some "end"
  else none

/-- Does any protected pattern match this statement?  (The inner `for
protected in get_protected_operations()` loop of the source.) -/
def hasProtectedMatch (ps : List ProtectedPattern) (sql : String) : Bool :=
  ps.any (fun p => p.matches sql)

/-- Errors raised by `validate_protected_queries` (both are `AssertionError`
in the source; we keep the offending index, statement and the bounds of the
context window the message would show). -/
inductive QueryError where
  | unfenced (index : Nat) (sql : String) (windowStart windowEnd : Nat)
  | invalidFenceOp (index : Nat)
  deriving DecidableEq, Repr

/-- The loop body of `validate_protected_queries`: `index` is the position of
the head of the remaining list in the full log, `depth` the current
`fence_depth` (a Python `int`), `sfi` the current `start_fence_index`, and
`total` the length of the full log (used for the error's context window).
A `none` entry is a `None` sql dict, which the source skips. -/
def validatePQAux (ps : List ProtectedPattern) (total : Nat) :
    List (Option String) → Nat → Int → Nat → Except QueryError Unit
  | [], _, _, _ => .ok ()
  | q :: rest, index, depth, sfi =>
    match q with
    | none => validatePQAux ps total rest (index + 1) depth sfi
    | some sql =>
      let fenceResult : Except QueryError (Int × Nat) :=
        match matchFenceQuery sql with
        | some op =>
          if op = "start" then .ok (depth + 1, index)
          else if op = "end" then .ok (max (depth - 1) 0, sfi)
          else .error (.invalidFenceOp index)
        | none => .ok (depth, sfi)
      match fenceResult with
      | .error e => .error e
      | .ok (depth', sfi') =>
        if hasProtectedMatch ps sql && depth' == 0 then
          .error (.unfenced index sql (Int.toNat (max 0 ((sfi' : Int) - 5)))
            (min (index + 5) total))
        else validatePQAux ps total rest (index + 1) depth' sfi'

/-- `validate_protected_queries(queries)`, parameterized by the protected
pattern list that `get_protected_operations()` would return. -/
def validate_protected_queries (ps : List ProtectedPattern)
    (queries : List (Option String)) : Except QueryError Unit :=
  validatePQAux ps queries.length queries 0 0 0

/-- One step of the fence state machine: how processing one statement
changes `fence_depth` (mirrors the fence-marker branch of the loop). -/
def fenceStep (depth : Int) (q : Option String) : Int :=
  match q with
  | none => depth
  | some sql =>
    match matchFenceQuery sql with
    | some op =>
      if op = "start" then depth + 1
      else if op = "end" then max (depth - 1) 0
      else depth
    | none => depth

/-- The fence depth after sequentially processing a statement log. -/
def fenceDepth (queries : List (Option String)) : Int :=
  queries.foldl fenceStep 0

/-- Does the log contain a statement that matches a protected pattern while
the sequentially-computed fence depth (after this statement's own fence
marker, as in the source) is 0?  `d` is the depth entering the list. -/
def existsUnfenced (ps : List ProtectedPattern) : Int → List (Option String) → Bool
  | _, [] => false
  | d, q :: rest =>
    let d' := fenceStep d q
    (match q with
     | some sql => hasProtectedMatch ps sql && d' == 0
     | none => false) || existsUnfenced ps d' rest

/-- `matchFenceQuery` only ever reports the operations `start` and `end`. -/
theorem matchFenceQuery_cases (sql : String) :
    matchFenceQuery sql = none ∨ matchFenceQuery sql = some "start" ∨
      matchFenceQuery sql = some "end" := by
  unfold matchFenceQuery
  split
  · exact Or.inr (Or.inl rfl)
  · split
    · exact Or.inr (Or.inr rfl)
    · exact Or.inl rfl

/-- The validator loop accepts exactly the logs with no protected statement
at fence depth 0; the accumulators `idx`, `sfi`, `total` only shape the
error payload. -/
theorem validatePQAux_ok_iff (ps : List ProtectedPattern) (total : Nat) :
    ∀ (l : List (Option String)) (idx : Nat) (d : Int) (sfi : Nat),
      validatePQAux ps total l idx d sfi = .ok () ↔ existsUnfenced ps d l = false := by
  intro l
  induction l with
  | nil => intro idx d sfi; simp [validatePQAux, existsUnfenced]
  | cons q rest ih =>
    intro idx d sfi
    cases q with
    | none =>
      simp only [validatePQAux, existsUnfenced, fenceStep, Bool.false_or]
      exact ih (idx + 1) d sfi
    | some sql =>
      rcases matchFenceQuery_cases sql with hc | hc | hc
      · by_cases hm : hasProtectedMatch ps sql && d == 0
        · simp [validatePQAux, existsUnfenced, fenceStep, hc, hm]
        · simp only [validatePQAux, existsUnfenced, fenceStep, hc, hm, Bool.false_or,
            if_neg hm]
          simpa [hm] using ih (idx + 1) d sfi
      · by_cases hm : hasProtectedMatch ps sql && (d + 1) == 0
        · simp [validatePQAux, existsUnfenced, fenceStep, hc, hm]
        · simp only [validatePQAux, existsUnfenced, fenceStep, hc]
          simpa [hm] using ih (idx + 1) (d + 1) idx
      · by_cases hm : hasProtectedMatch ps sql && (max (d - 1) 0) == 0
        · simp [validatePQAux, existsUnfenced, fenceStep, hc, hm]
        · simp only [validatePQAux, existsUnfenced, fenceStep, hc]
          simpa [hm] using ih (idx + 1) (max (d - 1) 0) sfi

/-- `existsUnfenced` holds exactly when some indexed statement matches a
protected pattern while the sequential fence depth at that statement is 0. -/
theorem existsUnfenced_true_iff (ps : List ProtectedPattern) :
    ∀ (l : List (Option String)) (d : Int),
      existsUnfenced ps d l = true ↔
        ∃ i, ∃ h : i < l.length, ∃ sql, l.get ⟨i, h⟩ = some sql ∧
          hasProtectedMatch ps sql = true ∧ (l.take (i + 1)).foldl fenceStep d = 0 := by
  intro l
  induction l with
  | nil => intro d; simp [existsUnfenced]
  | cons q rest ih =>
    intro d
    constructor
    · intro h
      rcases Bool.or_eq_true_iff.mp (by simpa [existsUnfenced] using h) with hhead | htail
      · cases q with
        | none => simp at hhead
        | some sql =>
          rcases Bool.and_eq_true_iff.mp hhead with ⟨hm, hd⟩
          refine ⟨0, by simp, sql, rfl, hm, ?_⟩
          simpa [List.take, List.foldl] using eq_of_beq hd
      · rcases (ih (fenceStep d q)).mp htail with ⟨i, hi, sql, hget, hm, hd⟩
        exact ⟨i + 1, by simpa using Nat.succ_lt_succ hi, sql, hget, hm, by
          simpa [List.take, List.foldl] using hd⟩
    · rintro ⟨i, hi, sql, hget, hm, hd⟩
      cases i with
      | zero =>
        have hq : q = some sql := hget
        subst hq
        have hd0 : fenceStep d (some sql) = 0 := by simpa [List.take, List.foldl] using hd
        simp [existsUnfenced, hm, hd0]
      | succ j =>
        have : existsUnfenced ps (fenceStep d q) rest = true := by
          refine (ih (fenceStep d q)).mpr ⟨j, by simpa using Nat.lt_of_succ_lt_succ hi, sql,
            hget, hm, ?_⟩
          simpa [List.take, List.foldl] using hd
        simp [existsUnfenced, this]

/-- C1: `validate_protected_queries` raises (an unfenced-protected error) iff
some statement in the log matches a protected pattern while the sequentially
computed fence depth at that statement is 0; the log
[begin-fence, DELETE, end-fence] passes, [DELETE] alone raises at index 0,
and in [begin-fence, DELETE, end-fence, DELETE] the second delete (index 3)
raises while the first (index 1) does not. -/
theorem C1_fence_scanner_raises_iff_unfenced_protected :
    (∀ (ps : List ProtectedPattern) (qs : List (Option String)),
      validate_protected_queries ps qs = .ok () ↔
        ¬ ∃ i, ∃ h : i < qs.length, ∃ sql, qs.get ⟨i, h⟩ = some sql ∧
          hasProtectedMatch ps sql = true ∧ fenceDepth (qs.take (i + 1)) = 0)
    ∧ validate_protected_queries base_protected_operations
        [some "SELECT 'start_role_override'",
         some "DELETE FROM \"sentry_user\" WHERE id = 1",
         some "SELECT 'end_role_override'"] = .ok ()
    ∧ validate_protected_queries base_protected_operations
        [some "DELETE FROM \"sentry_user\" WHERE id = 1"] =
        .error (.unfenced 0 "DELETE FROM \"sentry_user\" WHERE id = 1" 0 1)
    ∧ validate_protected_queries base_protected_operations
        [some "SELECT 'start_role_override'",
         some "DELETE FROM \"sentry_user\" WHERE id = 1",
         some "SELECT 'end_role_override'",
         some "DELETE FROM \"sentry_user\" WHERE id = 1"] =
        .error (.unfenced 3 "DELETE FROM \"sentry_user\" WHERE id = 1" 0 4) := by
  refine ⟨fun ps qs => ?_, by decide, by decide, by decide⟩
  rw [validate_protected_queries, validatePQAux_ok_iff]
  rw [← Bool.not_eq_true, not_iff_not]
  exact existsUnfenced_true_iff ps qs 0

/-- One fence step keeps the depth nonnegative. -/
theorem fenceStep_nonneg (d : Int) (q : Option String) (hd : 0 ≤ d) :
    0 ≤ fenceStep d q := by
  cases q with
  | none => simpa [fenceStep] using hd
  | some sql =>
    rcases matchFenceQuery_cases sql with hc | hc | hc <;>
      simp [fenceStep, hc] <;> omega

/-- C8: for every statement log (including logs with unmatched end-fence
markers) the sequential fence depth is nonnegative before and after every
statement, and an end-fence marker at depth 0 leaves the depth at 0. -/
theorem C8_fence_depth_never_negative :
    (∀ (qs : List (Option String)) (i : Nat), 0 ≤ fenceDepth (qs.take i))
    ∧ (∀ (d : Int) (q : Option String), 0 ≤ d → 0 ≤ fenceStep d q)
    ∧ (∀ sql, matchFenceQuery sql = some "end" → fenceStep 0 (some sql) = 0) := by
  refine ⟨fun qs i => ?_, fenceStep_nonneg, fun sql h => by simp [fenceStep, h]⟩
  have key : ∀ (l : List (Option String)) (d : Int), 0 ≤ d → 0 ≤ l.foldl fenceStep d := by
    intro l
    induction l with
    | nil => intro d hd; simpa using hd
    | cons q rest ih =>
      intro d hd
      simpa [List.foldl] using ih (fenceStep d q) (fenceStep_nonneg d q hd)
  exact key (qs.take i) 0 le_rfl

/-! ## Cross-silo foreign-key validators -/

/-- The target of a Django `RelatedField`: either the literal `"self"` or a
model (identified by its name). -/
inductive RelTarget where
  | self
  | named (name : String)
  deriving DecidableEq, Repr

/-- One field of a model's `_meta.fields`, as the validators classify them:
a `RelatedField` (ordinary reference), a `HybridCloudForeignKey` (holding
its `foreign_model`), or anything else. -/
inductive FieldT where
  | related (target : RelTarget)
  | hcfk (foreign_model : String)
  | other
  deriving DecidableEq, Repr

/-- The Django metadata the validators read, embedded explicitly: the models
`iter_models` yields (name with its `_meta.fields`), each model's
`_meta.silo_limit.modes` (`none` when the model has no `ModelSiloLimit`),
and whether the model is a `SnowflakeIdMixin` subclass. -/
structure MetaEnv where
  models : List (String × List FieldT)
  silo_limit : String → Option (List SiloMode)
  snowflake : String → Bool

/-- Errors raised by the validators (all `ValueError` in the source). -/
inductive VErr where
  | missingSiloLimit (model : String)
  | crossSiloRelation (model : String) (mode : SiloMode) (related : String)
  | globalIdentity (related : String) (model : String)
  deriving DecidableEq, Repr

/-- The loop of `validate_relation_does_not_cross_silo_foreign_keys`: for
each mode of the source model's silo limit, look up the related model's silo
limit (as the source re-evaluates it inside the loop) and fail on the first
mode the related model does not support. -/
def checkModes (env : MetaEnv) (m r : String) : List SiloMode → Except VErr Unit
  | [] => .ok ()
  | mode :: rest =>
    match env.silo_limit r with
    | none => .error (.missingSiloLimit r)
    | some rm =>
      if mode ∈ rm then checkModes env m r rest
      else .error (.crossSiloRelation m mode r)

/-- `validate_relation_does_not_cross_silo_foreign_keys`. -/
def validate_relation_does_not_cross_silo_foreign_keys (env : MetaEnv)
    (model related : RelTarget) : Except VErr Unit :=
  match model, related with
  | .self, _ => .ok ()
  | _, .self => .ok ()
  | .named m, .named r =>
    match env.silo_limit m with
    | none => .error (.missingSiloLimit m)
    | some mm => checkModes env m r mm

/-- The loop of `_is_relation_cross_silo`: first mode of the source model
not supported by the related model means the relation is cross-silo. -/
def isCrossSiloAux (env : MetaEnv) (r : String) : List SiloMode → Except VErr Bool
  | [] => .ok false
  | mode :: rest =>
    match env.silo_limit r with
    | none => .error (.missingSiloLimit r)
    | some rm =>
      if mode ∈ rm then isCrossSiloAux env r rest
      else .ok true

/-- `_is_relation_cross_silo` (it calls `_model_silo_limit`, so it can also
raise the missing-silo-limit `ValueError`). -/
def _is_relation_cross_silo (env : MetaEnv) (model related : RelTarget) :
    Except VErr Bool :=
  match model, related with
  | .self, _ => .ok false
  | _, .self => .ok false
  | .named m, .named r =>
    match env.silo_limit m with
    | none => .error (.missingSiloLimit m)
    | some mm => isCrossSiloAux env r mm

/-- `validate_hcfk_has_global_id`: a snowflake target is always fine; the
`(Actor, NotificationSetting)` pair is a named carve-out; otherwise the
target must not run in REGION mode. -/
def validate_hcfk_has_global_id (env : MetaEnv) (model related_model : String) :
    Except VErr Unit :=
  if env.snowflake related_model then .ok ()
  else if related_model = "Actor" ∧ model = "NotificationSetting" then .ok ()
  else
    match env.silo_limit related_model with
    | none => .error (.missingSiloLimit related_model)
    | some rm =>
      if SiloMode.REGION ∈ rm then .error (.globalIdentity related_model model)
      else .ok ()

/-- Python `set` insertion (`seen | {pair}`): add the pair if absent. -/
def insertPair (seen : List (String × String)) (p : String × String) :
    List (String × String) :=
  if p ∈ seen then seen else seen ++ [p]

/-- The body of the field loop of `validate_model_no_cross_silo_foreign_keys`
for one field, threading the `seen` set.  The two exemption branches fall
through (no `continue`) when the exempted ordering is not actually
cross-silo, exactly as in the source. -/
def vmStep (env : MetaEnv) (model : String) (exemptions : List (String × String))
    (seen : List (String × String)) : FieldT → Except VErr (List (String × String))
  | .other => .ok seen
  | .hcfk fm =>
    match validate_hcfk_has_global_id env model fm with
    | .error e => .error e
    | .ok () => .ok seen
  | .related target =>
    let afterExemptions : Except VErr (List (String × String)) :=
      match validate_relation_does_not_cross_silo_foreign_keys env
          (.named model) target with
      | .error e => .error e
      | .ok () =>
        match validate_relation_does_not_cross_silo_foreign_keys env
            target (.named model) with
        | .error e => .error e
        | .ok () => .ok seen
    let checkReverse : Except VErr (List (String × String)) :=
      match target with
      | .self => afterExemptions
      | .named r =>
        if (r, model) ∈ exemptions then
          match _is_relation_cross_silo env target (.named model) with
          | .error e => .error e
          | .ok true => .ok (insertPair seen (r, model))
          | .ok false => afterExemptions
        else afterExemptions
    match target with
    | .self => checkReverse
    | .named r =>
      if (model, r) ∈ exemptions then
        match _is_relation_cross_silo env (.named model) target with
        | .error e => .error e
        | .ok true => .ok (insertPair seen (model, r))
        | .ok false => checkReverse
      else checkReverse

/-- The field loop of `validate_model_no_cross_silo_foreign_keys`. -/
def vmLoop (env : MetaEnv) (model : String) (exemptions : List (String × String)) :
    List FieldT → List (String × String) → Except VErr (List (String × String))
  | [], seen => .ok seen
  | f :: rest, seen =>
    match vmStep env model exemptions seen f with
    | .error e => .error e
    | .ok seen' => vmLoop env model exemptions rest seen'

/-- `validate_model_no_cross_silo_foreign_keys`. -/
def validate_model_no_cross_silo_foreign_keys (env : MetaEnv) (model : String)
    (fields : List FieldT) (exemptions : List (String × String)) :
    Except VErr (List (String × String)) :=
  vmLoop env model exemptions fields []

/-- Union of two `seen` sets (`seen |= ...`), keeping the set semantics of
the Python code. -/
def unionPairs (seen more : List (String × String)) : List (String × String) :=
  more.foldl insertPair seen

/-- The model loop of `validate_no_cross_silo_foreign_keys`. -/
def vnLoop (env : MetaEnv) (exemptions : List (String × String)) :
    List (String × List FieldT) → List (String × String) →
      Except VErr (List (String × String))
  | [], seen => .ok seen
  | (m, fields) :: rest, seen =>
    match validate_model_no_cross_silo_foreign_keys env m fields exemptions with
    | .error e => .error e
    | .ok s => vnLoop env exemptions rest (unionPairs seen s)

/-- `validate_no_cross_silo_foreign_keys`: run the per-model validator over
every model `iter_models` yields and union the `seen` sets. -/
def validate_no_cross_silo_foreign_keys (env : MetaEnv)
    (exemptions : List (String × String)) : Except VErr (List (String × String)) :=
  vnLoop env exemptions env.models []

/-- `checkModes` succeeds exactly when every mode of the source model is a
mode of the related model. -/
theorem checkModes_ok_iff (env : MetaEnv) (m r : String) (rm : List SiloMode)
    (hr : env.silo_limit r = some rm) :
    ∀ modes, checkModes env m r modes = .ok () ↔ ∀ md ∈ modes, md ∈ rm := by
  intro modes
  induction modes with
  | nil => simp [checkModes]
  | cons mode rest ih =>
    by_cases hm : mode ∈ rm
    · simpa [checkModes, hr, hm] using ih
    · simp [checkModes, hr, hm]

/-- `checkModes` either succeeds or fails with a cross-silo relation error
naming the two models (given the related model has a silo limit). -/
theorem checkModes_cases (env : MetaEnv) (m r : String) (rm : List SiloMode)
    (hr : env.silo_limit r = some rm) :
    ∀ modes, checkModes env m r modes = .ok () ∨
      ∃ md, checkModes env m r modes = .error (.crossSiloRelation m md r) := by
  intro modes
  induction modes with
  | nil => exact Or.inl rfl
  | cons mode rest ih =>
    by_cases hm : mode ∈ rm
    · simpa [checkModes, hr, hm] using ih
    · exact Or.inr ⟨mode, by simp [checkModes, hr, hm]⟩

/-- The single-edge instance of `validate_model_no_cross_silo_foreign_keys`,
with neither ordering exempted, reduces to the two directed mode checks. -/
theorem validate_model_single_edge (env : MetaEnv) (A B : String)
    (la lb : List SiloMode) (ex : List (String × String))
    (hla : env.silo_limit A = some la) (hlb : env.silo_limit B = some lb)
    (h1 : (A, B) ∉ ex) (h2 : (B, A) ∉ ex) :
    validate_model_no_cross_silo_foreign_keys env A [.related (.named B)] ex =
      match checkModes env A B la with
      | .error e => .error e
      | .ok _ =>
        match checkModes env B A lb with
        | .error e => .error e
        | .ok _ => .ok [] := by
  cases hc1 : checkModes env A B la with
  | error e =>
    simp [validate_model_no_cross_silo_foreign_keys, vmLoop, vmStep,
      validate_relation_does_not_cross_silo_foreign_keys, hla, hlb, h1, h2, hc1]
  | ok u =>
    cases u
    cases hc2 : checkModes env B A lb with
    | error e =>
      simp [validate_model_no_cross_silo_foreign_keys, vmLoop, vmStep,
        validate_relation_does_not_cross_silo_foreign_keys, hla, hlb, h1, h2, hc1, hc2]
    | ok u' =>
      cases u'
      simp [validate_model_no_cross_silo_foreign_keys, vmLoop, vmStep,
        validate_relation_does_not_cross_silo_foreign_keys, hla, hlb, h1, h2, hc1, hc2]

/-- C2: for an ordinary-reference (`RelatedField`) edge from A to B with
neither ordering exempted, `validate_no_cross_silo_foreign_keys` succeeds
iff placementOf(A) ⊆ placementOf(B) and placementOf(B) ⊆ placementOf(A),
and otherwise fails with a cross-silo relation error naming both models (in
one of the two checked orderings); a self-referencing edge never raises.
A concrete non-subset instance fails naming A and B. -/
theorem C2_ordinary_reference_requires_mutual_placement :
    (∀ (sl : String → Option (List SiloMode)) (sf : String → Bool)
        (ex : List (String × String)) (A B : String) (la lb : List SiloMode),
      sl A = some la → sl B = some lb → (A, B) ∉ ex → (B, A) ∉ ex →
      (validate_no_cross_silo_foreign_keys ⟨[(A, [.related (.named B)])], sl, sf⟩ ex
          = .ok [] ↔ (∀ md ∈ la, md ∈ lb) ∧ (∀ md ∈ lb, md ∈ la))
      ∧ (¬ ((∀ md ∈ la, md ∈ lb) ∧ (∀ md ∈ lb, md ∈ la)) →
          ∃ md,
            validate_no_cross_silo_foreign_keys ⟨[(A, [.related (.named B)])], sl, sf⟩ ex
                = .error (.crossSiloRelation A md B) ∨
              validate_no_cross_silo_foreign_keys ⟨[(A, [.related (.named B)])], sl, sf⟩ ex
                = .error (.crossSiloRelation B md A)))
    ∧ (∀ (env : MetaEnv) (A : String) (ex : List (String × String)),
        validate_model_no_cross_silo_foreign_keys env A [.related .self] ex = .ok [])
    ∧ validate_no_cross_silo_foreign_keys
        ⟨[("A", [.related (.named "B")])],
         (fun n => if n = "A" then some [SiloMode.CONTROL]
                   else if n = "B" then some [SiloMode.REGION] else none),
         fun _ => false⟩ [] = .error (.crossSiloRelation "A" .CONTROL "B") := by
  refine ⟨?_, ?_, by decide⟩
  · intro sl sf ex A B la lb hla hlb h1 h2
    have haA : (MetaEnv.mk [(A, [.related (.named B)])] sl sf).silo_limit A = some la := hla
    have hbB : (MetaEnv.mk [(A, [.related (.named B)])] sl sf).silo_limit B = some lb := hlb
    have hred := validate_model_single_edge (MetaEnv.mk [(A, [.related (.named B)])] sl sf)
      A B la lb ex haA hbB h1 h2
    rcases checkModes_cases (MetaEnv.mk [(A, [.related (.named B)])] sl sf) A B lb hbB la
      with hc1 | ⟨md1, hc1⟩
    · rcases checkModes_cases (MetaEnv.mk [(A, [.related (.named B)])] sl sf) B A la haA lb
        with hc2 | ⟨md2, hc2⟩
      · have hvm : validate_model_no_cross_silo_foreign_keys
            (MetaEnv.mk [(A, [.related (.named B)])] sl sf) A [.related (.named B)] ex
            = .ok [] := by rw [hred, hc1, hc2]
        have hvn : validate_no_cross_silo_foreign_keys
            (MetaEnv.mk [(A, [.related (.named B)])] sl sf) ex = .ok [] := by
          show vnLoop _ ex [(A, [FieldT.related (.named B)])] [] = _
          rw [vnLoop, hvm]
          rfl
        refine ⟨⟨fun _ => ?_, fun _ => hvn⟩, fun hnot => absurd ?_ hnot⟩ <;>
          exact ⟨(checkModes_ok_iff _ A B lb hbB la).mp hc1,
            (checkModes_ok_iff _ B A la haA lb).mp hc2⟩
      · have hvm : validate_model_no_cross_silo_foreign_keys
            (MetaEnv.mk [(A, [.related (.named B)])] sl sf) A [.related (.named B)] ex
            = .error (.crossSiloRelation B md2 A) := by rw [hred, hc1, hc2]
        have hvn : validate_no_cross_silo_foreign_keys
            (MetaEnv.mk [(A, [.related (.named B)])] sl sf) ex
            = .error (.crossSiloRelation B md2 A) := by
          show vnLoop _ ex [(A, [FieldT.related (.named B)])] [] = _
          rw [vnLoop, hvm]
        have hns : ¬ ∀ md ∈ lb, md ∈ la := by
          intro hsub
          rw [(checkModes_ok_iff _ B A la haA lb).mpr hsub] at hc2
          cases hc2
        refine ⟨⟨fun h => ?_, fun hok => absurd hok.2 hns⟩, fun _ => ⟨md2, Or.inr hvn⟩⟩
        rw [hvn] at h; cases h
    · have hvm : validate_model_no_cross_silo_foreign_keys
          (MetaEnv.mk [(A, [.related (.named B)])] sl sf) A [.related (.named B)] ex
          = .error (.crossSiloRelation A md1 B) := by rw [hred, hc1]
      have hvn : validate_no_cross_silo_foreign_keys
          (MetaEnv.mk [(A, [.related (.named B)])] sl sf) ex
          = .error (.crossSiloRelation A md1 B) := by
        show vnLoop _ ex [(A, [FieldT.related (.named B)])] [] = _
        rw [vnLoop, hvm]
      have hns : ¬ ∀ md ∈ la, md ∈ lb := by
        intro hsub
        rw [(checkModes_ok_iff _ A B lb hbB la).mpr hsub] at hc1
        cases hc1
      refine ⟨⟨fun h => ?_, fun hok => absurd hok.1 hns⟩, fun _ => ⟨md1, Or.inl hvn⟩⟩
      rw [hvn] at h; cases h
  · intro env A ex
    simp [validate_model_no_cross_silo_foreign_keys, vmLoop, vmStep,
      validate_relation_does_not_cross_silo_foreign_keys]

/-- C5 counterexample: a `HybridCloudForeignKey` to a locally-identified
(non-snowflake) model whose placement is CONTROL-only does NOT raise, even
though no carve-out matches — refuting "always raises unless a carve-out
matches". -/
theorem C5_counterexample_control_only_target_accepted :
    validate_hcfk_has_global_id
      (MetaEnv.mk [] (fun n => if n = "B" then some [SiloMode.CONTROL] else none)
        (fun _ => false)) "A" "B" = .ok () := by decide

/-- C5 (amended): a snowflake target never raises; the named
`(Actor, NotificationSetting)` carve-out never raises; and for a
non-snowflake target outside the carve-out, `validate_hcfk_has_global_id`
raises GlobalIdentityError (naming the pair) iff the target's declared
placement includes REGION. -/
theorem C5_hcfk_raises_iff_region_target :
    (∀ (env : MetaEnv) (A B : String), env.snowflake B = true →
      validate_hcfk_has_global_id env A B = .ok ())
    ∧ (∀ env : MetaEnv,
        validate_hcfk_has_global_id env "NotificationSetting" "Actor" = .ok ())
    ∧ (∀ (env : MetaEnv) (A B : String) (rm : List SiloMode),
        env.snowflake B = false → ¬(B = "Actor" ∧ A = "NotificationSetting") →
        env.silo_limit B = some rm →
        (validate_hcfk_has_global_id env A B = .error (.globalIdentity B A) ↔
          SiloMode.REGION ∈ rm)) := by
  refine ⟨fun env A B h => by simp [validate_hcfk_has_global_id, h], fun env => ?_, ?_⟩
  · by_cases hs : env.snowflake "Actor" <;> simp [validate_hcfk_has_global_id, hs]
  · intro env A B rm h1 h2 h3
    by_cases hr : SiloMode.REGION ∈ rm <;>
      simp [validate_hcfk_has_global_id, h1, h2, h3, hr]

/-- An exempted ordering that really is cross-silo is skipped with the pair
added to `seen` (the `continue` branch of the field loop). -/
theorem vmStep_exempt_cross (env : MetaEnv) (model r : String)
    (ex : List (String × String)) (seen : List (String × String))
    (h1 : (model, r) ∈ ex)
    (hc : _is_relation_cross_silo env (.named model) (.named r) = .ok true) :
    vmStep env model ex seen (.related (.named r)) = .ok (insertPair seen (model, r)) := by
  simp [vmStep, h1, hc]

/-- An exempted ordering that is NOT cross-silo (a stale exemption) falls
through to the ordinary two-directional validation with `seen` unchanged —
the pair is not recorded. -/
theorem vmStep_exempt_stale (env : MetaEnv) (model r : String)
    (ex : List (String × String)) (seen : List (String × String))
    (h1 : (model, r) ∈ ex) (h2 : (r, model) ∉ ex)
    (hc : _is_relation_cross_silo env (.named model) (.named r) = .ok false) :
    vmStep env model ex seen (.related (.named r)) =
      match validate_relation_does_not_cross_silo_foreign_keys env
          (.named model) (.named r) with
      | .error e => .error e
      | .ok _ =>
        match validate_relation_does_not_cross_silo_foreign_keys env
            (.named r) (.named model) with
        | .error e => .error e
        | .ok _ => .ok seen := by
  simp [vmStep, h1, h2, hc]
  rfl

/-- C6 (amended): an exempted ordered pair that is genuinely cross-silo is
skipped without error and recorded in `seen` (also at the
`validate_no_cross_silo_foreign_keys` level); an exempted pair that is not
cross-silo in the exempted ordering is NOT recorded — it falls through to
the ordinary validation of both orderings with `seen` unchanged. -/
theorem C6_exempted_pair_seen_semantics :
    (∀ (env : MetaEnv) (model r : String) (ex seen : List (String × String)),
      (model, r) ∈ ex →
      _is_relation_cross_silo env (.named model) (.named r) = .ok true →
      vmStep env model ex seen (.related (.named r)) =
        .ok (insertPair seen (model, r)))
    ∧ (∀ (sl : String → Option (List SiloMode)) (sf : String → Bool)
        (A B : String) (ex : List (String × String)),
        (A, B) ∈ ex →
        _is_relation_cross_silo (MetaEnv.mk [(A, [.related (.named B)])] sl sf)
          (.named A) (.named B) = .ok true →
        validate_no_cross_silo_foreign_keys
          (MetaEnv.mk [(A, [.related (.named B)])] sl sf) ex = .ok [(A, B)])
    ∧ (∀ (env : MetaEnv) (model r : String) (ex seen : List (String × String)),
        (model, r) ∈ ex → (r, model) ∉ ex →
        _is_relation_cross_silo env (.named model) (.named r) = .ok false →
        vmStep env model ex seen (.related (.named r)) =
          match validate_relation_does_not_cross_silo_foreign_keys env
              (.named model) (.named r) with
          | .error e => .error e
          | .ok _ =>
            match validate_relation_does_not_cross_silo_foreign_keys env
                (.named r) (.named model) with
            | .error e => .error e
            | .ok _ => .ok seen) := by
  refine ⟨vmStep_exempt_cross, ?_, vmStep_exempt_stale⟩
  intro sl sf A B ex h1 hc
  have hstep := vmStep_exempt_cross (MetaEnv.mk [(A, [.related (.named B)])] sl sf)
    A B ex [] h1 hc
  have hvm : validate_model_no_cross_silo_foreign_keys
      (MetaEnv.mk [(A, [.related (.named B)])] sl sf) A [.related (.named B)] ex
      = .ok (insertPair [] (A, B)) := by
    show vmLoop _ A ex [FieldT.related (.named B)] [] = _
    rw [vmLoop, hstep]
    rfl
  show vnLoop _ ex [(A, [FieldT.related (.named B)])] [] = _
  rw [vnLoop, hvm]
  rfl

/-- C6 counterexample: an exempted pair (A, B) with an edge A→B where the
relation is not cross-silo in any ordering (a stale exemption): validation
succeeds but returns an empty `seen` set — the stale pair is NOT recorded,
refuting "it is likewise recorded in the returned seen set". -/
theorem C6_counterexample_stale_exemption_not_recorded :
    validate_no_cross_silo_foreign_keys
      (MetaEnv.mk [("A", [.related (.named "B")])]
        (fun n => if n = "A" then some [SiloMode.CONTROL]
                  else if n = "B" then some [SiloMode.CONTROL] else none)
        (fun _ => false)) [("A", "B")] = .ok [] := by decide

/-! ## Test execution multiplexer (`SiloModeTestDecorator`) -/

/-- A Python class as the decorator machinery sees it: its name, its base
classes (`__bases__`), and its own `_silo_modes` attribute (set by
`apply`), or `none` when the attribute is not set on the class itself. -/
inductive PyClass where
  | mk (name : String) (bases : List PyClass) (silo_modes_attr : Option (List SiloMode))

def PyClass.name : PyClass → String
  | .mk n _ _ => n

def PyClass.bases : PyClass → List PyClass
  | .mk _ b _ => b

def PyClass.silo_modes_attr : PyClass → Option (List SiloMode)
  | .mk _ _ a => a

mutual
/-- `getattr(cls, "_silo_modes", None)`: the class's own attribute, else the
first one found along its bases (Python resolves through the MRO). -/
def getSiloModes : PyClass → Option (List SiloMode)
  | .mk _ bases a =>
    match a with
    | some l => some l
    | none => getSiloModesFirst bases

/-- First `_silo_modes` attribute found in a list of classes. -/
def getSiloModesFirst : List PyClass → Option (List SiloMode)
  | [] => none
  | c :: rest =>
    match getSiloModes c with
    | some l => some l
    | none => getSiloModesFirst rest
end

/-- Python truthiness of `getattr(current_class, "_silo_modes", None)`: the
attribute exists and is a non-empty set. -/
def truthySiloModes (c : PyClass) : Bool :=
  match getSiloModes c with
  | some l => !l.isEmpty
  | none => false

/-- Total size of a queue of classes (for the termination of the
breadth-first walk). -/
def sizeQ : List PyClass → Nat
  | [] => 0
  | .mk _ bases _ :: rest => 1 + sizeQ bases + sizeQ rest

theorem sizeQ_cons (c : PyClass) (q : List PyClass) :
    sizeQ (c :: q) = 1 + sizeQ c.bases + sizeQ q := by
  cases c with
  | mk n b a => simp [sizeQ, PyClass.bases]

theorem sizeQ_append (l1 l2 : List PyClass) :
    sizeQ (l1 ++ l2) = sizeQ l1 + sizeQ l2 := by
  induction l1 with
  | nil => simp [sizeQ]
  | cons c rest ih =>
    rw [List.cons_append, sizeQ_cons, sizeQ_cons, ih]
    omega

/-- The breadth-first queue walk of
`_validate_that_no_ancestor_is_silo_decorated`: pop the front, check its
(possibly inherited) `_silo_modes` for truthiness, push its bases. -/
def bfsSiloDecorated : List PyClass → Bool
  | [] => false
  | c :: queue => truthySiloModes c || bfsSiloDecorated (queue ++ c.bases)
termination_by q => sizeQ q
decreasing_by
  rw [sizeQ_append, sizeQ_cons]
  omega

/-- `_validate_that_no_ancestor_is_silo_decorated` (true = it raises
`AncestorAlreadySiloDecoratedException`). -/
def _validate_that_no_ancestor_is_silo_decorated (c : PyClass) : Bool :=
  bfsSiloDecorated [c]

mutual
/-- A class together with everything reachable through its base classes. -/
def ancestry : PyClass → List PyClass
  | .mk n bases a => .mk n bases a :: ancestryList bases

/-- Ancestries of a list of classes, concatenated. -/
def ancestryList : List PyClass → List PyClass
  | [] => []
  | c :: rest => ancestry c ++ ancestryList rest
end

/-- `Region` from `sentry.types.region`, as the default test topology uses
it. -/
inductive RegionCategory where
  | MULTI_TENANT
  | SINGLE_TENANT
  deriving DecidableEq, Repr

structure Region where
  name : String
  id : Nat
  address : String
  category : RegionCategory
  deriving DecidableEq, Repr

/-- `_DEFAULT_TEST_REGIONS`. -/
def _DEFAULT_TEST_REGIONS : List Region :=
  [ ⟨"us", 1, "http://us.testserver", .MULTI_TENANT⟩,
    ⟨"eu", 2, "http://eu.testserver", .MULTI_TENANT⟩,
    ⟨"acme-single-tenant", 3, "acme.my.sentry.io", .SINGLE_TENANT⟩ ]

/-- `SiloMode.name` of the Python enum member. -/
def SiloMode.pyName : SiloMode → String
  | .MONOLITH => "MONOLITH"
  | .CONTROL => "CONTROL"
  | .REGION => "REGION"

/-- `name[0].upper() + name[1:].lower()`. -/
def capFirstLowerRest (s : String) : String :=
  match s.toList with
  | [] => ""
  | c :: rest => String.mk (Char.toUpper c :: rest.map Char.toLower)

/-- `_get_test_name_suffix`. -/
def _get_test_name_suffix (silo_mode : SiloMode) : String :=
  "__In" ++ capFirstLowerRest silo_mode.pyName ++ "Mode"

/-- `SiloModeTestDecorator.__init__`: keep the given modes with MONOLITH
filtered out. -/
def decoratorSiloModes (silo_modes : List SiloMode) : List SiloMode :=
  silo_modes.filter (fun sm => sm ≠ SiloMode.MONOLITH)

/-- The stored mode sets of the four exported decorators. -/
def all_silo_test : List SiloMode :=
  decoratorSiloModes [SiloMode.CONTROL, SiloMode.REGION]

def no_silo_test : List SiloMode := decoratorSiloModes []

def control_silo_test : List SiloMode := decoratorSiloModes [SiloMode.CONTROL]

def region_silo_test : List SiloMode := decoratorSiloModes [SiloMode.REGION]

/-- `_SiloModeTestModification` (frozen dataclass): the mode set, the region
topology, the `stable` flag, and the two default switches. -/
structure SiloModeTestModification where
  silo_modes : List SiloMode
  regions : List Region
  stable : Bool
  include_monolith_run : Bool := true
  run_original_class_in_silo_mode : Bool := false

/-- `SiloModeTestDecorator.__call__`: build the modification from the stored
modes, `stable`, and `regions or _DEFAULT_TEST_REGIONS`. -/
def decoratorCall (stored : List SiloMode) (stable : Bool) (regions : List Region) :
    SiloModeTestModification :=
  ⟨stored, if regions.isEmpty then _DEFAULT_TEST_REGIONS else regions, stable, true, false⟩

/-- `_arrange_silo_modes`: the (primary, secondary) silo-mode arrangement.
With the default switches a single required mode still falls through to
`(MONOLITH, silo_modes)`. -/
def _arrange_silo_modes (m : SiloModeTestModification) : SiloMode × List SiloMode :=
  match m.silo_modes with
  | [silo_mode] =>
    if !m.include_monolith_run then (silo_mode, [])
    else if m.run_original_class_in_silo_mode then (silo_mode, [SiloMode.MONOLITH])
    else (SiloMode.MONOLITH, m.silo_modes)
  | _ => (SiloMode.MONOLITH, m.silo_modes)

/-- The class built by `_create_overriding_test_class` together with the
silo mode its wrapped `_callSetUp`/`_callTestMethod` establish via
`test_config`. -/
structure WrappedClass where
  cls : PyClass
  mode : SiloMode

/-- `_create_overriding_test_class`: a new class named
`test_class.__name__ + name_suffix`, subclassing `test_class`, whose
methods run under `test_config(silo_mode)`. -/
def _create_overriding_test_class (test_class : PyClass) (silo_mode : SiloMode)
    (name_suffix : String) : WrappedClass :=
  ⟨.mk (test_class.name ++ name_suffix) [test_class] none, silo_mode⟩

/-- `_add_siloed_test_classes_to_module`: the sibling classes registered in
the module (one per secondary mode, with the mode's name suffix) and the
returned primary wrapping of the class (unrenamed). -/
def _add_siloed_test_classes_to_module (m : SiloModeTestModification)
    (test_class : PyClass) : List WrappedClass × WrappedClass :=
  let arrangement := _arrange_silo_modes m
  (arrangement.2.map (fun sm =>
      _create_overriding_test_class test_class sm (_get_test_name_suffix sm)),
    _create_overriding_test_class test_class arrangement.1 "")

/-- `sorted(modes, key=str)` for the three-member enum: the Python string
key is `"SiloMode.MONOLITH"` etc., so CONTROL < MONOLITH < REGION. -/
def sortedModesByStr (s : List SiloMode) : List SiloMode :=
  (if SiloMode.CONTROL ∈ s then [SiloMode.CONTROL] else []) ++
    (if SiloMode.MONOLITH ∈ s then [SiloMode.MONOLITH] else []) ++
    (if SiloMode.REGION ∈ s then [SiloMode.REGION] else [])

/-- What a silo-mode decorator can be applied to: a `TestCase` subclass, a
function, or something else (which `apply` rejects). -/
inductive TestObj where
  | cls (c : PyClass)
  | func (name : String)
  | other

/-- Exceptions `apply` can raise. -/
inductive ApplyErr where
  | ancestorAlreadySiloDecorated
  | invalidTarget
  deriving DecidableEq, Repr

/-- The outcome of `apply`: the decorated object returned unchanged (after
the class got its `_silo_modes` marker), a class expansion (registered
siblings plus the wrapped primary), or a pytest parameterization of a
function over silo modes. -/
inductive ApplyResult where
  | unchanged (obj : TestObj)
  | classExpanded (siblings : List WrappedClass) (primary : WrappedClass)
  | funcParameterized (name : String) (modes : List SiloMode)

/-- `decorated_obj._silo_modes = self.silo_modes` (the marker mutation). -/
def setSiloModes (m : SiloModeTestModification) : PyClass → PyClass
  | .mk n bases _ => .mk n bases (some m.silo_modes)

/-- The process-wide flags `apply` reads: `SENTRY_USE_MONOLITH_DBS` (from
the environment) and `settings.FORCE_SILOED_TESTS`. -/
structure Globals where
  SENTRY_USE_MONOLITH_DBS : Bool
  FORCE_SILOED_TESTS : Bool
  deriving DecidableEq, Repr

/-- `_SiloModeTestModification.apply`. -/
def SiloModeTestModification.apply (m : SiloModeTestModification) (g : Globals) :
    TestObj → Except ApplyErr ApplyResult
  | .other => .error .invalidTarget
  | .func fname =>
    if g.SENTRY_USE_MONOLITH_DBS || !(m.stable || g.FORCE_SILOED_TESTS) then
      .ok (.unchanged (.func fname))
    else
      .ok (.funcParameterized fname
        (sortedModesByStr (m.silo_modes ++ [SiloMode.MONOLITH])))
  | .cls c =>
    if _validate_that_no_ancestor_is_silo_decorated c then
      .error .ancestorAlreadySiloDecorated
    else
      let marked := setSiloModes m c
      if g.SENTRY_USE_MONOLITH_DBS || !(m.stable || g.FORCE_SILOED_TESTS) then
        .ok (.unchanged (.cls marked))
      else
        .ok (.classExpanded (_add_siloed_test_classes_to_module m marked).1
          (_add_siloed_test_classes_to_module m marked).2)

/-- The class a caller would subclass after decorating: the object returned
unchanged, or the primary wrapping for an expanded class. -/
def primaryClassOf : ApplyResult → Option PyClass
  | .unchanged (.cls c) => some c
  | .classExpanded _ p => some p.cls
  | _ => none

/-! ## Configuration context (`assume_test_silo_mode`) -/

/-- The Django settings the context manager reads and can override. -/
structure Settings where
  SILO_MODE : SiloMode
  SENTRY_REGION : Option String
  deriving DecidableEq, Repr

/-- Modelled from the spec: `SiloMode.get_current_mode` lives in
`sentry.silo`, outside the repository files; it reports the process-wide
active plane, i.e. the `SILO_MODE` setting. -/
def get_current_mode (s : Settings) : SiloMode := s.SILO_MODE

/-- Python truthiness of `getattr(settings, "SENTRY_REGION")`. -/
def regionTruthy : Option String → Bool
  | none => false
  | some r => decide (r ≠ "")

/-- The `overrides` mapping `assume_test_silo_mode` builds (each field
`some v` iff the corresponding key is put into the dict). -/
structure Overrides where
  SILO_MODE : Option SiloMode
  SENTRY_REGION : Option String
  deriving DecidableEq, Repr

/-- The possibly-downgraded desired silo of `assume_test_silo_mode`: forced
to MONOLITH when `can_be_monolith` and the current mode is MONOLITH. -/
def atsmDesired (desired_silo : SiloMode) (can_be_monolith : Bool)
    (s : Settings) : SiloMode :=
  if can_be_monolith ∧ get_current_mode s = SiloMode.MONOLITH then SiloMode.MONOLITH
  else desired_silo

/-- The overrides `assume_test_silo_mode` computes: `SILO_MODE` when the
(possibly downgraded) desired silo differs from the current mode, and
`SENTRY_REGION = "na"` when entering REGION mode with no truthy region
setting. -/
def atsmOverrides (desired_silo : SiloMode) (can_be_monolith : Bool)
    (s : Settings) : Overrides :=
  let desired := atsmDesired desired_silo can_be_monolith s
  ⟨if desired ≠ get_current_mode s then some desired else none,
   if desired = SiloMode.REGION ∧ regionTruthy s.SENTRY_REGION = false then some "na"
   else none⟩

/-- The settings in force inside the context (`override_settings` applied to
the computed overrides); on exit `override_settings` restores `s` itself. -/
def atsmDuring (desired_silo : SiloMode) (can_be_monolith : Bool)
    (s : Settings) : Settings :=
  let o := atsmOverrides desired_silo can_be_monolith s
  ⟨o.SILO_MODE.getD s.SILO_MODE,
   match o.SENTRY_REGION with
   | some r => some r
   | none => s.SENTRY_REGION⟩

theorem ancestry_eq (c : PyClass) : ancestry c = c :: ancestryList c.bases := by
  cases c with
  | mk n b a => simp [ancestry, PyClass.bases]

theorem ancestryList_append (l1 l2 : List PyClass) :
    ancestryList (l1 ++ l2) = ancestryList l1 ++ ancestryList l2 := by
  induction l1 with
  | nil => simp [ancestryList]
  | cons c rest ih => simp [ancestryList, ih]

/-- The breadth-first queue walk finds a truthy `_silo_modes` marker exactly
when some class in the combined ancestry of the queue carries one. -/
theorem bfsSiloDecorated_iff_aux : ∀ (n : Nat) (q : List PyClass), sizeQ q ≤ n →
    (bfsSiloDecorated q = true ↔ ∃ c ∈ ancestryList q, truthySiloModes c = true) := by
  intro n
  induction n with
  | zero =>
    intro q hq
    cases q with
    | nil => simp [bfsSiloDecorated, ancestryList]
    | cons c rest => rw [sizeQ_cons] at hq; omega
  | succ n ih =>
    intro q hq
    cases q with
    | nil => simp [bfsSiloDecorated, ancestryList]
    | cons c queue =>
      have hsz : sizeQ (queue ++ c.bases) ≤ n := by
        rw [sizeQ_append]
        rw [sizeQ_cons] at hq
        omega
      rw [bfsSiloDecorated, Bool.or_eq_true, ih _ hsz, ancestryList, ancestry_eq,
        ancestryList_append]
      simp only [List.mem_append, List.mem_cons]
      constructor
      · rintro (h | ⟨x, hx, ht⟩)
        · exact ⟨c, Or.inl (Or.inl rfl), h⟩
        · rcases hx with h1 | h2
          · exact ⟨x, Or.inr h1, ht⟩
          · exact ⟨x, Or.inl (Or.inr h2), ht⟩
      · rintro ⟨x, hx, ht⟩
        rcases hx with (rfl | h2) | h1
        · exact Or.inl ht
        · exact Or.inr ⟨x, Or.inr h2, ht⟩
        · exact Or.inr ⟨x, Or.inl h1, ht⟩

/-- C7: applying a silo-mode decoration to a class whose ancestry (the
breadth-first walk over all base classes, multiple inheritance included)
already carries a truthy `_silo_modes` marker raises
`AncestorAlreadySiloDecoratedException`, producing no expansion. -/
theorem C7_ancestor_decorated_raises (m : SiloModeTestModification) (g : Globals)
    (c : PyClass) (h : ∃ a ∈ ancestry c, truthySiloModes a = true) :
    m.apply g (.cls c) = .error .ancestorAlreadySiloDecorated := by
  obtain ⟨a, ha, ht⟩ := h
  have hb : _validate_that_no_ancestor_is_silo_decorated c = true := by
    rw [_validate_that_no_ancestor_is_silo_decorated]
    exact (bfsSiloDecorated_iff_aux (sizeQ [c]) [c] le_rfl).mpr
      ⟨a, by simpa [ancestryList] using ha, ht⟩
  simp [SiloModeTestModification.apply, hb]

/-- C7 witness: decorating a direct subclass of a control-decorated class
raises at decoration time. -/
theorem C7_witness_subclass_of_decorated_raises :
    SiloModeTestModification.apply (decoratorCall control_silo_test true [])
      ⟨false, false⟩
      (.cls (.mk "Child" [.mk "Base" [] (some [SiloMode.CONTROL])] none))
      = .error .ancestorAlreadySiloDecorated :=
  C7_ancestor_decorated_raises _ _ _
    ⟨.mk "Base" [] (some [SiloMode.CONTROL]),
      by simp [ancestry_eq, ancestryList, PyClass.bases, ancestry],
      by simp [truthySiloModes, getSiloModes]⟩

theorem setSiloModes_name (m : SiloModeTestModification) (c : PyClass) :
    (setSiloModes m c).name = c.name := by
  cases c; rfl

/-- C3 (amended): a class-shaped unit decorated with exactly one silo mode
and `stable=True` under the default switches expands to exactly two units,
but the ORIGINAL (unrenamed) class is the one wrapped for MONOLITH mode,
and the single generated sibling carries the silo-mode suffix (e.g.
`__InControlMode`) and runs in that silo mode. -/
theorem C3_single_mode_stable_expansion
    (m : SiloModeTestModification) (g : Globals) (c : PyClass) (mode : SiloMode)
    (h1 : m.silo_modes = [mode]) (h2 : m.stable = true)
    (h3 : m.include_monolith_run = true) (h4 : m.run_original_class_in_silo_mode = false)
    (h5 : g.SENTRY_USE_MONOLITH_DBS = false)
    (h6 : _validate_that_no_ancestor_is_silo_decorated c = false) :
    m.apply g (.cls c) = .ok (.classExpanded
      [⟨.mk (c.name ++ _get_test_name_suffix mode) [setSiloModes m c] none, mode⟩]
      ⟨.mk c.name [setSiloModes m c] none, SiloMode.MONOLITH⟩) := by
  simp [SiloModeTestModification.apply, h6, h5, h2, _add_siloed_test_classes_to_module,
    _arrange_silo_modes, h1, h3, h4, _create_overriding_test_class, setSiloModes_name]

/-- C3 witness: a concrete region-silo, stable class expands to the original
wrapped for MONOLITH plus a `__InRegionMode` sibling. -/
theorem C3_witness_region_stable_expansion :
    SiloModeTestModification.apply
      ⟨[SiloMode.REGION], _DEFAULT_TEST_REGIONS, true, true, false⟩ ⟨false, true⟩
      (.cls (.mk "T" [] none)) = .ok (.classExpanded
        [⟨.mk "T__InRegionMode" [.mk "T" [] (some [SiloMode.REGION])] none,
          SiloMode.REGION⟩]
        ⟨.mk "T" [.mk "T" [] (some [SiloMode.REGION])] none, SiloMode.MONOLITH⟩) :=
  C3_single_mode_stable_expansion _ _ _ SiloMode.REGION rfl rfl rfl rfl rfl
    (by simp [_validate_that_no_ancestor_is_silo_decorated, bfsSiloDecorated,
      truthySiloModes, getSiloModes, getSiloModesFirst, PyClass.bases])

/-- C3 counterexample: with `control_silo_test(stable=True)` under default
global switches, the unrenamed primary runs in MONOLITH mode and the one
sibling is suffixed `__InControlMode` running CONTROL — not, as claimed, the
original under CONTROL with a MONOLITH-suffixed sibling. -/
theorem C3_counterexample_primary_runs_monolith :
    SiloModeTestModification.apply (decoratorCall control_silo_test true [])
      ⟨false, false⟩ (.cls (.mk "MyTest" [] none)) = .ok (.classExpanded
        [⟨.mk "MyTest__InControlMode" [.mk "MyTest" [] (some [SiloMode.CONTROL])] none,
          SiloMode.CONTROL⟩]
        ⟨.mk "MyTest" [.mk "MyTest" [] (some [SiloMode.CONTROL])] none,
          SiloMode.MONOLITH⟩) := by
  simp [SiloModeTestModification.apply, _validate_that_no_ancestor_is_silo_decorated,
    bfsSiloDecorated, truthySiloModes, getSiloModes, getSiloModesFirst, PyClass.bases,
    decoratorCall, control_silo_test, decoratorSiloModes, setSiloModes,
    _add_siloed_test_classes_to_module, _arrange_silo_modes,
    _create_overriding_test_class, _get_test_name_suffix, capFirstLowerRest,
    SiloMode.pyName, PyClass.name]

/-- C4: with `stable=False`, when the monolith-database switch is on or the
force-siloed-tests flag is off, decoration returns the decorated object
itself (the class only gains its `_silo_modes` marker): no sibling class and
no parameterization. -/
theorem C4_unstable_collapses_to_single_monolith_run
    (m : SiloModeTestModification) (g : Globals) (h1 : m.stable = false)
    (h2 : (g.SENTRY_USE_MONOLITH_DBS || !g.FORCE_SILOED_TESTS) = true) :
    (∀ fname, m.apply g (.func fname) = .ok (.unchanged (.func fname)))
    ∧ ∀ c, _validate_that_no_ancestor_is_silo_decorated c = false →
        m.apply g (.cls c) = .ok (.unchanged (.cls (setSiloModes m c))) := by
  have hcond : (g.SENTRY_USE_MONOLITH_DBS || !(m.stable || g.FORCE_SILOED_TESTS)) = true := by
    rw [h1]
    simpa using h2
  refine ⟨fun fname => ?_, fun c hc => ?_⟩
  · simp only [SiloModeTestModification.apply]
    rw [hcond]
    rfl
  · simp only [SiloModeTestModification.apply]
    rw [hc, hcond]
    rfl

/-- C4 witness: `control_silo_test(stable=False)` under default flags leaves
a function and a class as single (monolith) executions. -/
theorem C4_witness_control_unstable_default_flags :
    (SiloModeTestModification.apply (decoratorCall control_silo_test false [])
        ⟨false, false⟩ (.func "test_fn") = .ok (.unchanged (.func "test_fn")))
    ∧ SiloModeTestModification.apply (decoratorCall control_silo_test false [])
        ⟨false, false⟩ (.cls (.mk "T" [] none))
        = .ok (.unchanged (.cls (.mk "T" [] (some [SiloMode.CONTROL])))) := by
  refine ⟨(C4_unstable_collapses_to_single_monolith_run
    (decoratorCall control_silo_test false []) ⟨false, false⟩ rfl rfl).1 "test_fn", ?_⟩
  have h := (C4_unstable_collapses_to_single_monolith_run
    (decoratorCall control_silo_test false []) ⟨false, false⟩ rfl rfl).2
    (.mk "T" [] none)
    (by simp [_validate_that_no_ancestor_is_silo_decorated, bfsSiloDecorated,
      truthySiloModes, getSiloModes, getSiloModesFirst, PyClass.bases])
  exact h

/-- C9: entering `assume_test_silo_mode` with `can_be_monolith=True` while
the process is in MONOLITH mode forces the desired silo to MONOLITH,
computes an empty override set, and leaves the settings in force inside the
context identical to the surrounding ones (restoration on exit then
trivially restores the same settings). -/
theorem C9_monolith_assume_is_noop (desired : SiloMode) (s : Settings)
    (h : get_current_mode s = SiloMode.MONOLITH) :
    atsmDesired desired true s = SiloMode.MONOLITH ∧
    atsmOverrides desired true s = ⟨none, none⟩ ∧
    atsmDuring desired true s = s := by
  have hd : atsmDesired desired true s = SiloMode.MONOLITH := by
    simp [atsmDesired, h]
  have ho : atsmOverrides desired true s = ⟨none, none⟩ := by
    simp [atsmOverrides, hd, h]
  refine ⟨hd, ho, ?_⟩
  simp [atsmDuring, ho]

/-- C9 witness: asking for REGION from MONOLITH with downgrade allowed
changes nothing. -/
theorem C9_witness_region_from_monolith :
    atsmDesired SiloMode.REGION true ⟨SiloMode.MONOLITH, none⟩ = SiloMode.MONOLITH ∧
    atsmOverrides SiloMode.REGION true ⟨SiloMode.MONOLITH, none⟩ = ⟨none, none⟩ ∧
    atsmDuring SiloMode.REGION true ⟨SiloMode.MONOLITH, none⟩
      = ⟨SiloMode.MONOLITH, none⟩ :=
  C9_monolith_assume_is_noop SiloMode.REGION ⟨SiloMode.MONOLITH, none⟩ rfl

/-- C10: `no_silo_test` stores the empty mode set (MONOLITH is filtered
out on construction), so a class it decorated carries `_silo_modes = ∅`,
which the truthiness-based breadth-first ancestor check treats as
undecorated: decorating a subclass of the decorated result succeeds instead
of raising. -/
theorem C10_subclass_of_no_silo_test_accepts_decoration :
    no_silo_test = []
    ∧ ∀ (g1 g2 : Globals) (stable1 : Bool) (regions1 : List Region)
        (m2 : SiloModeTestModification) (baseName childName : String)
        (r : ApplyResult) (B : PyClass),
        SiloModeTestModification.apply (decoratorCall no_silo_test stable1 regions1) g1
          (.cls (.mk baseName [] none)) = .ok r →
        primaryClassOf r = some B →
        ∃ res, m2.apply g2 (.cls (.mk childName [B] none)) = .ok res := by
  refine ⟨rfl, ?_⟩
  intro g1 g2 stable1 regions1 m2 baseName childName r B h1 h2
  have hbase : _validate_that_no_ancestor_is_silo_decorated (.mk baseName [] none)
      = false := by
    simp [_validate_that_no_ancestor_is_silo_decorated, bfsSiloDecorated,
      truthySiloModes, getSiloModes, getSiloModesFirst, PyClass.bases]
  cases hflag : (g1.SENTRY_USE_MONOLITH_DBS || !(stable1 || g1.FORCE_SILOED_TESTS)) with
  | true =>
    have happ : SiloModeTestModification.apply (decoratorCall no_silo_test stable1 regions1)
        g1 (.cls (.mk baseName [] none))
        = .ok (.unchanged (.cls (.mk baseName [] (some [])))) := by
      simp only [SiloModeTestModification.apply, decoratorCall]
      rw [hbase, hflag]
      rfl
    rw [happ] at h1
    injection h1 with hr
    subst hr
    simp only [primaryClassOf, Option.some.injEq] at h2
    subst h2
    have hval2 : _validate_that_no_ancestor_is_silo_decorated
        (.mk childName [.mk baseName [] (some [])] none) = false := by
      simp [_validate_that_no_ancestor_is_silo_decorated, bfsSiloDecorated,
        truthySiloModes, getSiloModes, getSiloModesFirst, PyClass.bases]
    cases hflag2 : (g2.SENTRY_USE_MONOLITH_DBS || !(m2.stable || g2.FORCE_SILOED_TESTS)) with
    | true =>
      refine ⟨.unchanged (.cls (setSiloModes m2 (.mk childName [.mk baseName [] (some [])] none))), ?_⟩
      simp only [SiloModeTestModification.apply]
      rw [hval2, hflag2]
      rfl
    | false =>
      refine ⟨.classExpanded
          (_add_siloed_test_classes_to_module m2 (setSiloModes m2 (.mk childName [.mk baseName [] (some [])] none))).1
          (_add_siloed_test_classes_to_module m2 (setSiloModes m2 (.mk childName [.mk baseName [] (some [])] none))).2, ?_⟩
      simp only [SiloModeTestModification.apply]
      rw [hval2, hflag2]
      rfl
  | false =>
    have happ : SiloModeTestModification.apply (decoratorCall no_silo_test stable1 regions1)
        g1 (.cls (.mk baseName [] none))
        = .ok (.classExpanded []
            ⟨.mk (baseName ++ "") [.mk baseName [] (some [])] none, SiloMode.MONOLITH⟩) := by
      simp only [SiloModeTestModification.apply, decoratorCall]
      rw [hbase, hflag]
      rfl
    rw [happ] at h1
    injection h1 with hr
    subst hr
    simp only [primaryClassOf, Option.some.injEq] at h2
    subst h2
    have hval2 : _validate_that_no_ancestor_is_silo_decorated
        (.mk childName [.mk (baseName ++ "") [.mk baseName [] (some [])] none] none)
        = false := by
      simp [_validate_that_no_ancestor_is_silo_decorated, bfsSiloDecorated,
        truthySiloModes, getSiloModes, getSiloModesFirst, PyClass.bases]
    cases hflag2 : (g2.SENTRY_USE_MONOLITH_DBS || !(m2.stable || g2.FORCE_SILOED_TESTS)) with
    | true =>
      refine ⟨.unchanged (.cls (setSiloModes m2 (.mk childName [.mk (baseName ++ "") [.mk baseName [] (some [])] none] none))), ?_⟩
      simp only [SiloModeTestModification.apply]
      rw [hval2, hflag2]
      rfl
    | false =>
      refine ⟨.classExpanded
          (_add_siloed_test_classes_to_module m2 (setSiloModes m2 (.mk childName [.mk (baseName ++ "") [.mk baseName [] (some [])] none] none))).1
          (_add_siloed_test_classes_to_module m2 (setSiloModes m2 (.mk childName [.mk (baseName ++ "") [.mk baseName [] (some [])] none] none))).2, ?_⟩
      simp only [SiloModeTestModification.apply]
      rw [hval2, hflag2]
      rfl

end Silo
